import Mathlib

/-!
# Verification of the Sudoku session engine

Shallow embedding of the game-session logic of `frontend/src/components/Game.jsx`
(the `Game` React component): board state, move handling, hint dispensing,
win detection and scoring.  JavaScript numbers are modelled as `Nat`/`Int`
(all quantities in play are small integers) and the exact fractional
difficulty multipliers as `ℚ`; `Math.round` is modelled exactly
(round half toward positive infinity).
-/

namespace Sudoku

/-- A 9×9 grid of digits; `0` denotes an empty cell. -/
abbrev Grid := Fin 9 → Fin 9 → ℕ

/-- A cell coordinate. -/
abbrev Cell := Fin 9 × Fin 9

/-- Write `v` at `(r, c)`, leaving every other cell unchanged
(models `newBoard[row][col] = v` on a fresh deep copy). -/
def setCell (g : Grid) (r c : Fin 9) (v : ℕ) : Grid :=
  fun i j => if i = r ∧ j = c then v else g i j

/-- The score-breakdown record produced by `calculateScore` (the object passed
to `setFinalScore`). -/
structure ScoreBreakdown where
  total : ℤ
  base : ℤ
  mistakePenalty : ℤ
  hintPenalty : ℤ
  correctAnswers : ℕ
  correctAnswerBonus : ℤ
  timeBonus : ℤ
  multiplier : ℚ
  perfectBonus : ℤ
  difficulty : String
  time : ℕ
  mistakes : ℕ
  hints : ℕ
  deriving DecidableEq, Repr

/-- The session state of the `Game` component: one field per `useState` hook
that participates in the game logic. -/
structure GameState where
  puzzle : Grid
  solution : Grid
  board : Grid
  initialBoard : Grid
  selectedCell : Option Cell
  timer : ℕ
  isTimerRunning : Bool
  isWon : Bool
  mistakes : ℕ
  hintsUsed : ℕ
  correctAnswers : ℕ
  finalScore : Option ScoreBreakdown
  highlightedNumber : Option ℕ
  difficulty : String
  deriving DecidableEq

/-- `Math.round` on an exact rational: round half toward positive infinity. -/
def jsRound (q : ℚ) : ℤ := Int.floor (q + 1 / 2)

/-- JavaScript `String.prototype.toLowerCase`, restricted to ASCII keys. -/
def jsToLower (s : String) : String := String.mk (s.data.map Char.toLower)

/-- The `difficultyMultipliers` lookup table. -/
def difficultyMultipliers (d : String) : Option ℚ :=
  if d = "easy" then some 1
  else if d = "medium" then some (3 / 2)
  else if d = "hard" then some 2
  else if d = "random" then some (5 / 4)
  else none

/-- `difficultyMultipliers[difficulty.toLowerCase()] || 1.0`. -/
def multiplierOf (d : String) : ℚ :=
  (difficultyMultipliers (jsToLower d)).getD 1

/-- The time-bonus tier chain of `calculateScore`. -/
def timeBonusOf (timer : ℕ) : ℤ :=
  if timer < 180 then 3000
  else if timer < 300 then 2000
  else if timer < 600 then 1000
  else if timer < 900 then 500
  else 0

/-- `calculateScore`: the final-score computation run once on win, producing
the breakdown stored in `finalScore`. -/
def calculateScore (correctAnswers mistakes hintsUsed timer : ℕ)
    (difficulty : String) : ScoreBreakdown :=
  let score1 : ℤ := 10000 + (correctAnswers : ℤ) * 100
    - (mistakes : ℤ) * 300 - (hintsUsed : ℤ) * 800
  let timeBonus : ℤ := timeBonusOf timer
  let score2 : ℤ := score1 + timeBonus
  let multiplier : ℚ := multiplierOf difficulty
  let score3 : ℤ := jsRound ((score2 : ℚ) * multiplier)
  let score4 : ℤ :=
    if mistakes = 0 ∧ hintsUsed = 0 then score3 + 2000 else score3
  let total : ℤ := max 0 score4
  { total := total
    base := 10000
    mistakePenalty := (mistakes : ℤ) * 300
    hintPenalty := (hintsUsed : ℤ) * 800
    correctAnswers := correctAnswers
    correctAnswerBonus := (correctAnswers : ℤ) * 100
    timeBonus := timeBonus
    multiplier := multiplier
    perfectBonus := if mistakes = 0 ∧ hintsUsed = 0 then 2000 else 0
    difficulty := difficulty
    time := timer
    mistakes := mistakes
    hints := hintsUsed }

/-- `calculateLiveScore`: the live score shown during play (no time bonus,
no perfect bonus). -/
def calculateLiveScore (correctAnswers mistakes hintsUsed : ℕ)
    (difficulty : String) : ℤ :=
  let score1 : ℤ := 10000 + (correctAnswers : ℤ) * 100
    - (mistakes : ℤ) * 300 - (hintsUsed : ℤ) * 800
  max 0 (jsRound ((score1 : ℚ) * multiplierOf difficulty))

/-- The cell-by-cell win test of `checkWin` / the inline completion loop of
`handleNumberInput`. -/
def checkWinBoard (b sol : Grid) : Bool := decide (∀ i j, b i j = sol i j)

/-- Common tail of `handleNumberInput`: commit the new board and counters,
set or clear the highlighted number, and run the win check on the new board
(the `setTimeout` completion check). -/
def finishMove (value : ℕ) (newBoard : Grid) (correct mist : ℕ)
    (s : GameState) : GameState :=
  let isComplete := checkWinBoard newBoard s.solution
  { s with
    board := newBoard
    correctAnswers := correct
    mistakes := mist
    highlightedNumber := if value ≠ 0 then some value else none
    isWon := if isComplete then true else s.isWon
    isTimerRunning := if isComplete then false else s.isTimerRunning }

/-- `handleNumberInput(value)`: place (or toggle-clear) `value` at the
selected cell. -/
def handleNumberInput (value : ℕ) (s : GameState) : GameState :=
  if s.isWon then s else
  match s.selectedCell with
  | none => s
  | some (row, col) =>
    if s.initialBoard row col ≠ 0 then s
    else if s.board row col = value then
      -- toggle behavior: clear the cell; drop the point if it was correct
      let correct :=
        if (s.board row col ≠ 0 ∧ s.solution row col = s.board row col)
            ∧ s.initialBoard row col = 0
        then s.correctAnswers - 1 else s.correctAnswers
      finishMove value (setCell s.board row col 0) correct s.mistakes s
    else
      let correct :=
        if value ≠ 0 ∧ s.solution row col = value
            ∧ (s.board row col = 0
               ∨ (s.board row col ≠ 0 ∧ s.board row col ≠ s.solution row col))
        then s.correctAnswers + 1 else s.correctAnswers
      let mist :=
        if value ≠ 0 ∧ s.solution row col ≠ value
        then s.mistakes + 1 else s.mistakes
      finishMove value (setCell s.board row col value) correct mist s

/-- The eligible-cell scan of `handleHint`: cells empty in the board and not
prefilled, in row-major order. -/
def emptyCellsList (s : GameState) : List Cell :=
  (List.finRange 9).flatMap fun i =>
    (List.finRange 9).filterMap fun j =>
      if s.board i j = 0 ∧ s.initialBoard i j = 0 then some (i, j) else none

/-- The random cell draw of `handleHint`:
`Math.floor(Math.random() * emptyCells.length)` is modelled by an arbitrary
natural `k` reduced modulo the list length, covering every index the code
can draw. -/
def hintCell (k : ℕ) (s : GameState)
    (h : (emptyCellsList s).length ≠ 0) : Cell :=
  (emptyCellsList s).get ⟨k % (emptyCellsList s).length,
    Nat.mod_lt _ (Nat.pos_of_ne_zero h)⟩

/-- `handleHint()`: reveal one eligible cell (the `hintCell` draw), increment
`hintsUsed`, select the revealed cell and highlight its digit.  No-op when the
game is won, the hint budget is exhausted, or no cell is eligible.  Note the
handler performs no win check. -/
def handleHint (k : ℕ) (s : GameState) : GameState :=
  if s.isWon then s
  else if 3 ≤ s.hintsUsed then s
  else if h : (emptyCellsList s).length = 0 then s
  else
    { s with
      board := setCell s.board (hintCell k s h).1 (hintCell k s h).2
        (s.solution (hintCell k s h).1 (hintCell k s h).2)
      hintsUsed := s.hintsUsed + 1
      selectedCell := some (hintCell k s h)
      highlightedNumber := some (s.solution (hintCell k s h).1 (hintCell k s h).2) }

/-- The cell `onClick` handler: clicking a filled cell toggles digit
highlighting (never selects); clicking an empty cell selects it and clears
highlighting. -/
def handleCellClick (r c : Fin 9) (s : GameState) : GameState :=
  let cell := s.board r c
  if cell ≠ 0 then
    if s.highlightedNumber = some cell then
      { s with highlightedNumber := none, selectedCell := none }
    else
      { s with highlightedNumber := some cell, selectedCell := none }
  else
    { s with
      highlightedNumber := none
      selectedCell :=
        if s.initialBoard r c = 0 ∨ cell = 0 then some (r, c)
        else s.selectedCell }

/-- The initialize effect run when puzzle data arrives: unconditionally
install the puzzle/solution, copy the puzzle into the board and the initial
board, and reset the session counters.  (The effect performs no input
validation.) -/
def initializeGame (puzzleData solutionData : Grid) (s : GameState) :
    GameState :=
  { s with
    puzzle := puzzleData
    solution := solutionData
    board := puzzleData
    initialBoard := puzzleData
    selectedCell := none
    timer := 0
    isTimerRunning := true
    isWon := false
    mistakes := 0
    hintsUsed := 0
    correctAnswers := 0
    finalScore := none }

/-- The score-on-win effect: when the game is won and no final score has been
stored yet, compute and cache the breakdown; otherwise do nothing. -/
def scoreOnWinEffect (s : GameState) : GameState :=
  if s.isWon ∧ s.finalScore = none then
    { s with finalScore := some (calculateScore s.correctAnswers s.mistakes
        s.hintsUsed s.timer s.difficulty) }
  else s

/-- One user command into the session: digit entry (0 = clear), a hint
request (with its random draw), or a cell click (selection / digit
highlighting). -/
inductive Command where
  | input : ℕ → Command
  | hint : ℕ → Command
  | click : Fin 9 → Fin 9 → Command

/-- Dispatch a command to its handler. -/
def step : Command → GameState → GameState
  | .input v => handleNumberInput v
  | .hint k => handleHint k
  | .click r c => handleCellClick r c

/-! ## Concrete fixtures used by counterexamples and witnesses -/

/-- A fully solved reference grid (a valid Sudoku solution). -/
def solGrid : Grid := fun i j => ((i.val * 3 + i.val / 3 + j.val) % 9) + 1

/-- `solGrid` with the single cell `(0,0)` blanked: one move from complete. -/
def puzzleOneHole : Grid := fun i j => if i = 0 ∧ j = 0 then 0 else solGrid i j

/-- `solGrid` with cells `(0,0)` and `(0,1)` blanked. -/
def puzzleTwoHoles : Grid :=
  fun i j => if i = 0 ∧ (j = 0 ∨ j = 1) then 0 else solGrid i j

/-- A malformed puzzle: out-of-range digit `17` at `(0,0)`, which also
disagrees with `solGrid` there. -/
def malformedPuzzle : Grid :=
  fun i j => if i = 0 ∧ j = 0 then 17 else solGrid i j

/-- The pristine pre-load state (no puzzle fetched yet). -/
def blankState : GameState where
  puzzle := fun _ _ => 0
  solution := fun _ _ => 0
  board := fun _ _ => 0
  initialBoard := fun _ _ => 0
  selectedCell := none
  timer := 0
  isTimerRunning := false
  isWon := false
  mistakes := 0
  hintsUsed := 0
  correctAnswers := 0
  finalScore := none
  highlightedNumber := none
  difficulty := "random"

/-- A session one hint away from a complete board. -/
def oneHoleSession : GameState := initializeGame puzzleOneHole solGrid blankState

/-- A session with two editable holes, cell `(0,0)` selected. -/
def twoHolesSession : GameState :=
  step (.click 0 0) (initializeGame puzzleTwoHoles solGrid blankState)

/-- `twoHolesSession` after correctly filling the selected cell `(0,0)`:
the still-selected cell now holds its correct digit `1`. -/
def correctCellSession : GameState := handleNumberInput 1 twoHolesSession

/-- A freshly won session: both holes filled correctly, then the
score-on-win effect has fired and cached the breakdown. -/
def wonSession : GameState :=
  scoreOnWinEffect
    (step (.input 2) (step (.click 0 1) (step (.input 1) twoHolesSession)))

/-- `twoHolesSession` with the hint budget already exhausted. -/
def threeHintsSession : GameState := { twoHolesSession with hintsUsed := 3 }

/-- The prefilled-cell invariant: wherever the initial board is nonzero (the
`InitialMask`), the board still shows the puzzle's digit. -/
def PrefilledIntact (s : GameState) : Prop :=
  ∀ i j : Fin 9, s.initialBoard i j ≠ 0 → s.board i j = s.puzzle i j

instance (s : GameState) : Decidable (PrefilledIntact s) := by
  unfold PrefilledIntact
  infer_instance

/-- Follows the spec's words (not the source): the input-validity predicate
the spec claims `initialize` enforces — puzzle digits in `[0,9]`, solution
digits in `[1,9]`, and every nonzero puzzle cell agreeing with the solution.
(The 9×9 shape is intrinsic to `Grid`.)  Used only to compare the claimed
validation against the code's actual behavior. -/
def SpecValidInput (p sol : Grid) : Prop :=
  (∀ i j, p i j ≤ 9) ∧ (∀ i j, 1 ≤ sol i j ∧ sol i j ≤ 9) ∧
  (∀ i j, p i j ≠ 0 → p i j = sol i j)

example : solGrid 0 0 = 1 ∧ solGrid 0 1 = 2 := by decide
example : twoHolesSession.selectedCell = some (0, 0) := by decide
example : (handleNumberInput 2 twoHolesSession).mistakes = 1 := by decide
example :
    (handleNumberInput 2 (handleNumberInput 2 twoHolesSession)).board 0 0 = 0 := by
  decide
example : (handleHint 0 oneHoleSession).isWon = false := by decide
example : checkWinBoard (handleHint 0 oneHoleSession).board solGrid = true := by
  decide


/-! ## Helper lemmas -/

theorem setCell_same (g : Grid) (r c : Fin 9) (v : ℕ) :
    setCell g r c v r c = v := by
  simp [setCell]

theorem setCell_ne (g : Grid) (r c : Fin 9) (v : ℕ) (i j : Fin 9)
    (h : ¬(i = r ∧ j = c)) : setCell g r c v i j = g i j := by
  simp only [setCell, if_neg h]

/-- Every cell produced by the eligible-cell scan is empty and editable. -/
theorem mem_emptyCellsList {s : GameState} {p : Cell}
    (hp : p ∈ emptyCellsList s) :
    s.board p.1 p.2 = 0 ∧ s.initialBoard p.1 p.2 = 0 := by
  unfold emptyCellsList at hp
  simp only [List.mem_flatMap, List.mem_filterMap, List.mem_finRange,
    true_and] at hp
  obtain ⟨i, j, hj⟩ := hp
  by_cases hc : s.board i j = 0 ∧ s.initialBoard i j = 0
  · rw [if_pos hc] at hj
    cases hj
    exact hc
  · rw [if_neg hc] at hj
    cases hj

/-- The drawn hint cell is an eligible cell. -/
theorem hintCell_mem (k : ℕ) (s : GameState)
    (h : (emptyCellsList s).length ≠ 0) :
    hintCell k s h ∈ emptyCellsList s :=
  List.get_mem _ _ _

/-- Fields of the session untouched by `handleNumberInput`. -/
theorem handleNumberInput_frame (v : ℕ) (s : GameState) :
    (handleNumberInput v s).puzzle = s.puzzle ∧
    (handleNumberInput v s).solution = s.solution ∧
    (handleNumberInput v s).initialBoard = s.initialBoard ∧
    (handleNumberInput v s).selectedCell = s.selectedCell ∧
    (handleNumberInput v s).timer = s.timer ∧
    (handleNumberInput v s).hintsUsed = s.hintsUsed ∧
    (handleNumberInput v s).finalScore = s.finalScore ∧
    (handleNumberInput v s).difficulty = s.difficulty := by
  unfold handleNumberInput finishMove
  repeat' split
  all_goals simp

/-- Fields of the session untouched by `handleHint`. -/
theorem handleHint_frame (k : ℕ) (s : GameState) :
    (handleHint k s).puzzle = s.puzzle ∧
    (handleHint k s).solution = s.solution ∧
    (handleHint k s).initialBoard = s.initialBoard ∧
    (handleHint k s).timer = s.timer ∧
    (handleHint k s).isWon = s.isWon ∧
    (handleHint k s).isTimerRunning = s.isTimerRunning ∧
    (handleHint k s).mistakes = s.mistakes ∧
    (handleHint k s).correctAnswers = s.correctAnswers ∧
    (handleHint k s).finalScore = s.finalScore ∧
    (handleHint k s).difficulty = s.difficulty := by
  unfold handleHint
  repeat' split
  all_goals simp

/-- Fields of the session untouched by `handleCellClick`. -/
theorem handleCellClick_frame (r c : Fin 9) (s : GameState) :
    (handleCellClick r c s).puzzle = s.puzzle ∧
    (handleCellClick r c s).solution = s.solution ∧
    (handleCellClick r c s).initialBoard = s.initialBoard ∧
    (handleCellClick r c s).board = s.board ∧
    (handleCellClick r c s).timer = s.timer ∧
    (handleCellClick r c s).isWon = s.isWon ∧
    (handleCellClick r c s).isTimerRunning = s.isTimerRunning ∧
    (handleCellClick r c s).mistakes = s.mistakes ∧
    (handleCellClick r c s).hintsUsed = s.hintsUsed ∧
    (handleCellClick r c s).correctAnswers = s.correctAnswers ∧
    (handleCellClick r c s).finalScore = s.finalScore := by
  simp only [handleCellClick]
  split_ifs <;> simp

/-- `handleNumberInput` is the identity once the game is won. -/
theorem handleNumberInput_of_won (v : ℕ) (s : GameState)
    (h : s.isWon = true) : handleNumberInput v s = s := by
  unfold handleNumberInput
  rw [if_pos h]

/-- `handleHint` is the identity once the game is won. -/
theorem handleHint_of_won (k : ℕ) (s : GameState)
    (h : s.isWon = true) : handleHint k s = s := by
  unfold handleHint
  rw [if_pos h]

/-- `handleHint` is the identity once the hint budget is exhausted. -/
theorem handleHint_of_budget (k : ℕ) (s : GameState)
    (h : 3 ≤ s.hintsUsed) : handleHint k s = s := by
  unfold handleHint
  by_cases hwon : s.isWon
  · rw [if_pos hwon]
  · rw [if_neg hwon, if_pos h]

/-- `handleNumberInput` leaves untouched every board cell other than the
selected one. -/
theorem handleNumberInput_board_ne (v : ℕ) (s : GameState) (i j : Fin 9)
    (h : ∀ r c : Fin 9, s.selectedCell = some (r, c) → ¬(i = r ∧ j = c)) :
    (handleNumberInput v s).board i j = s.board i j := by
  unfold handleNumberInput finishMove
  split
  · rfl
  split
  · rfl
  next row col heq =>
    have hne := h row col heq
    split
    · rfl
    split
    · exact setCell_ne _ _ _ _ _ _ hne
    · exact setCell_ne _ _ _ _ _ _ hne

/-- `handleHint` leaves untouched every board cell that is prefilled. -/
theorem handleHint_board_prefilled (k : ℕ) (s : GameState) (i j : Fin 9)
    (h : s.initialBoard i j ≠ 0) :
    (handleHint k s).board i j = s.board i j := by
  unfold handleHint
  split
  · rfl
  split
  · rfl
  split
  · rfl
  next h3 hlen =>
    apply setCell_ne
    rintro ⟨rfl, rfl⟩
    exact h (mem_emptyCellsList (hintCell_mem k s hlen)).2

/-- `handleNumberInput` leaves board cells other than the selected editable
cell untouched; in particular prefilled cells never change. -/
theorem handleNumberInput_board_prefilled (v : ℕ) (s : GameState) (i j : Fin 9)
    (h : s.initialBoard i j ≠ 0) :
    (handleNumberInput v s).board i j = s.board i j := by
  unfold handleNumberInput finishMove
  split
  · rfl
  split
  · rfl
  next row col heq =>
    split
    · rfl
    next hrc =>
      push_neg at hrc
      have hne : ¬(i = row ∧ j = col) := by
        rintro ⟨rfl, rfl⟩
        exact h hrc
      split
      · exact setCell_ne _ _ _ _ _ _ hne
      · exact setCell_ne _ _ _ _ _ _ hne

/-- How `handleHint` changes the hint counter: either a no-op branch, or an
increment taken only under budget. -/
theorem handleHint_hintsUsed (k : ℕ) (s : GameState) :
    (handleHint k s).hintsUsed = s.hintsUsed ∨
    ((handleHint k s).hintsUsed = s.hintsUsed + 1 ∧ s.hintsUsed < 3) := by
  unfold handleHint
  by_cases hwon : s.isWon
  · rw [if_pos hwon]
    exact Or.inl rfl
  rw [if_neg hwon]
  by_cases h3 : 3 ≤ s.hintsUsed
  · rw [if_pos h3]
    exact Or.inl rfl
  rw [if_neg h3]
  by_cases hlen : (emptyCellsList s).length = 0
  · rw [dif_pos hlen]
    exact Or.inl rfl
  · rw [dif_neg hlen]
    exact Or.inr ⟨rfl, Nat.lt_of_not_le h3⟩

/-- `handleNumberInput` never decreases the mistake counter. -/
theorem handleNumberInput_mistakes_le (v : ℕ) (s : GameState) :
    s.mistakes ≤ (handleNumberInput v s).mistakes := by
  unfold handleNumberInput finishMove
  split
  · exact le_refl _
  split
  · exact le_refl _
  next row col heq =>
    split
    · exact le_refl _
    split
    · exact le_refl _
    · show s.mistakes ≤ (if _ ∧ _ then s.mistakes + 1 else s.mistakes)
      split
      · exact Nat.le_succ _
      · exact le_refl _

/-- `Math.round` of an integer is that integer. -/
theorem jsRound_intCast (n : ℤ) : jsRound (n : ℚ) = n := by
  unfold jsRound
  rw [add_comm, Int.floor_add_int]
  norm_num

theorem multiplierOf_easy : multiplierOf "easy" = 1 := by decide

theorem multiplierOf_medium : multiplierOf "medium" = 3 / 2 := by
  have h : jsToLower "medium" = "medium" := by decide
  rw [multiplierOf, h, difficultyMultipliers]
  rw [if_neg (by decide), if_pos rfl]
  rfl

theorem multiplierOf_hard : multiplierOf "hard" = 2 := by decide

theorem multiplierOf_random : multiplierOf "random" = 5 / 4 := by
  have h : jsToLower "random" = "random" := by decide
  rw [multiplierOf, h, difficultyMultipliers]
  rw [if_neg (by decide), if_neg (by decide), if_neg (by decide), if_pos rfl]
  rfl

/-! ## Claim theorems -/

/-- **C1**: for every session and every command (digit entry — which covers
`placeDigit` and `clearCell` —, `requestHint`, and cell clicks — which cover
`selectCell` and `highlightDigit`), every cell that is nonzero in the initial
board (the `InitialMask`) still equals the corresponding puzzle cell after
the command: no command ever mutates a prefilled cell. -/
theorem C1_prefilled_cells_never_mutated (c : Command) (s : GameState)
    (h : PrefilledIntact s) : PrefilledIntact (step c s) := by
  cases c with
  | input v =>
    intro i j hij
    simp only [step] at hij ⊢
    have hfr := handleNumberInput_frame v s
    rw [hfr.2.2.1] at hij
    rw [hfr.1, handleNumberInput_board_prefilled v s i j hij]
    exact h i j hij
  | hint k =>
    intro i j hij
    simp only [step] at hij ⊢
    have hfr := handleHint_frame k s
    rw [hfr.2.2.1] at hij
    rw [hfr.1, handleHint_board_prefilled k s i j hij]
    exact h i j hij
  | click r c' =>
    intro i j hij
    simp only [step] at hij ⊢
    have hfr := handleCellClick_frame r c' s
    rw [hfr.2.2.1] at hij
    rw [hfr.1, hfr.2.2.2.1]
    exact h i j hij

/-- Witness for C1: the invariant holds in a concrete session and is preserved
by a concrete hint command. -/
theorem C1_prefilled_cells_never_mutated_witness :
    PrefilledIntact oneHoleSession ∧
    PrefilledIntact (step (.hint 0) oneHoleSession) :=
  ⟨by decide,
    C1_prefilled_cells_never_mutated (.hint 0) oneHoleSession (by decide)⟩

/-- **C6**: won is a fixed point: when `isWon` is true, every command leaves
the board, mistakes, correct answers, hints used and the cached score
breakdown unchanged; and once a breakdown is cached, the score-on-win effect
never recomputes it. -/
theorem C6_won_fixed_point (c : Command) (s : GameState) (h : s.isWon = true) :
    (step c s).board = s.board ∧ (step c s).mistakes = s.mistakes ∧
    (step c s).correctAnswers = s.correctAnswers ∧
    (step c s).hintsUsed = s.hintsUsed ∧
    (step c s).finalScore = s.finalScore ∧
    (∀ b : ScoreBreakdown, s.finalScore = some b → scoreOnWinEffect s = s) := by
  have hcache : ∀ b : ScoreBreakdown, s.finalScore = some b →
      scoreOnWinEffect s = s := by
    intro b hb
    unfold scoreOnWinEffect
    rw [if_neg]
    rintro ⟨-, hnone⟩
    rw [hb] at hnone
    cases hnone
  cases c with
  | input v =>
    have hs : step (.input v) s = s := handleNumberInput_of_won v s h
    rw [hs]
    exact ⟨rfl, rfl, rfl, rfl, rfl, hcache⟩
  | hint k =>
    have hs : step (.hint k) s = s := handleHint_of_won k s h
    rw [hs]
    exact ⟨rfl, rfl, rfl, rfl, rfl, hcache⟩
  | click r c' =>
    have hfr := handleCellClick_frame r c' s
    exact ⟨hfr.2.2.2.1, hfr.2.2.2.2.2.2.2.1, hfr.2.2.2.2.2.2.2.2.2.1,
      hfr.2.2.2.2.2.2.2.2.1, hfr.2.2.2.2.2.2.2.2.2.2, hcache⟩

/-- Witness for C6 at a concrete won session and a concrete digit command. -/
theorem C6_won_fixed_point_witness :
    wonSession.isWon = true ∧
    ((step (.input 5) wonSession).board = wonSession.board ∧
     (step (.input 5) wonSession).mistakes = wonSession.mistakes ∧
     (step (.input 5) wonSession).correctAnswers = wonSession.correctAnswers ∧
     (step (.input 5) wonSession).hintsUsed = wonSession.hintsUsed ∧
     (step (.input 5) wonSession).finalScore = wonSession.finalScore ∧
     (∀ b : ScoreBreakdown, wonSession.finalScore = some b →
        scoreOnWinEffect wonSession = wonSession)) :=
  ⟨by decide, C6_won_fixed_point (.input 5) wonSession (by decide)⟩

/-- **C8**: the hint budget invariant: `hintsUsed` never exceeds 3, is
monotonically non-decreasing under every command, and a hint request made
with `hintsUsed = 3` (a 4th hint) is a no-op on the whole state. -/
theorem C8_hint_budget (c : Command) (k : ℕ) (s : GameState)
    (h3 : s.hintsUsed ≤ 3) :
    (step c s).hintsUsed ≤ 3 ∧ s.hintsUsed ≤ (step c s).hintsUsed ∧
    (s.hintsUsed = 3 → handleHint k s = s) := by
  refine ⟨?_, ?_, fun he => handleHint_of_budget k s (le_of_eq he.symm)⟩
  · cases c with
    | input v =>
      have hfr := handleNumberInput_frame v s
      simp only [step]
      rw [hfr.2.2.2.2.2.1]
      exact h3
    | hint k' =>
      rcases handleHint_hintsUsed k' s with he | ⟨he, hlt⟩
      · simp only [step]
        rw [he]
        exact h3
      · simp only [step]
        rw [he]
        omega
    | click r c' =>
      have hfr := handleCellClick_frame r c' s
      simp only [step]
      rw [hfr.2.2.2.2.2.2.2.2.1]
      exact h3
  · cases c with
    | input v =>
      have hfr := handleNumberInput_frame v s
      simp only [step]
      rw [hfr.2.2.2.2.2.1]
    | hint k' =>
      rcases handleHint_hintsUsed k' s with he | ⟨he, hlt⟩
      · simp only [step]
        rw [he]
      · simp only [step]
        rw [he]
        exact Nat.le_succ _
    | click r c' =>
      have hfr := handleCellClick_frame r c' s
      simp only [step]
      rw [hfr.2.2.2.2.2.2.2.2.1]

/-- Witness for C8 at a session whose budget is already exhausted. -/
theorem C8_hint_budget_witness :
    threeHintsSession.hintsUsed ≤ 3 ∧
    ((step (.hint 2) threeHintsSession).hintsUsed ≤ 3 ∧
     threeHintsSession.hintsUsed ≤ (step (.hint 2) threeHintsSession).hintsUsed ∧
     (threeHintsSession.hintsUsed = 3 →
        handleHint 2 threeHintsSession = threeHintsSession)) :=
  ⟨by decide, C8_hint_budget (.hint 2) 2 threeHintsSession (by decide)⟩

/-- **C10**: within a session the mistake counter is monotonically
non-decreasing under every command; a wrong placement on a selected editable
cell increments it by exactly 1; and only a new initialization resets it
to 0. -/
theorem C10_mistakes_monotone (c : Command) (s : GameState) :
    s.mistakes ≤ (step c s).mistakes ∧
    (∀ (r c' : Fin 9) (v : ℕ), s.isWon = false →
      s.selectedCell = some (r, c') → s.initialBoard r c' = 0 →
      s.board r c' ≠ v → v ≠ 0 → s.solution r c' ≠ v →
      (handleNumberInput v s).mistakes = s.mistakes + 1) ∧
    (∀ p sol : Grid, (initializeGame p sol s).mistakes = 0) := by
  refine ⟨?_, ?_, fun p sol => rfl⟩
  · cases c with
    | input v => exact handleNumberInput_mistakes_le v s
    | hint k => exact le_of_eq (handleHint_frame k s).2.2.2.2.2.2.1.symm
    | click r c' =>
      exact le_of_eq (handleCellClick_frame r c' s).2.2.2.2.2.2.2.1.symm
  · intro r c' v hw hsel hini hbne hv hsne
    simp [handleNumberInput, finishMove, hw, hsel, hini, hbne, hv, hsne]

/-- **C2** counterexample: placing a wrong digit twice on an empty editable
cell returns the cell to 0 and `correctAnswers` to its prior value, but
leaves `mistakes` one higher than before the first placement — refuting the
claim that both counters return to their pre-placement values for every
digit `d`. -/
theorem C2_toggle_counterexample :
    twoHolesSession.board 0 0 = 0 ∧ twoHolesSession.initialBoard 0 0 = 0 ∧
    twoHolesSession.selectedCell = some (0, 0) ∧
    twoHolesSession.mistakes = 0 ∧
    (handleNumberInput 2 (handleNumberInput 2 twoHolesSession)).board 0 0
      = 0 ∧
    (handleNumberInput 2 (handleNumberInput 2 twoHolesSession)).correctAnswers
      = twoHolesSession.correctAnswers ∧
    (handleNumberInput 2 (handleNumberInput 2 twoHolesSession)).mistakes
      = 1 := by
  decide

/-- **C2** (amended): for every empty editable selected cell and nonzero
digit `d`, provided the first placement does not complete the board, placing
`d` twice returns the cell to 0 and `correctAnswers` to its pre-placement
value; `mistakes` returns to its prior value exactly when `d` is the solution
digit, and otherwise ends exactly one higher. -/
theorem C2_toggle_restores (s : GameState) (r c : Fin 9) (d : ℕ)
    (hw : s.isWon = false) (hsel : s.selectedCell = some (r, c))
    (hini : s.initialBoard r c = 0) (hempty : s.board r c = 0) (hd : d ≠ 0)
    (hnw : checkWinBoard (setCell s.board r c d) s.solution = false) :
    (handleNumberInput d (handleNumberInput d s)).board r c = 0 ∧
    (handleNumberInput d (handleNumberInput d s)).correctAnswers
      = s.correctAnswers ∧
    (handleNumberInput d (handleNumberInput d s)).mistakes
      = (if s.solution r c = d then s.mistakes else s.mistakes + 1) := by
  have hbne : s.board r c ≠ d := by
    rw [hempty]
    exact fun hcon => hd hcon.symm
  have hfr := handleNumberInput_frame d s
  set s1 := handleNumberInput d s with hs1def
  have h1b : s1.board = setCell s.board r c d := by
    rw [hs1def]
    simp [handleNumberInput, finishMove, hw, hsel, hini, hbne]
  have h1w : s1.isWon = false := by
    rw [hs1def]
    simp [handleNumberInput, finishMove, hw, hsel, hini, hbne, hnw]
  have h1sol : s1.solution = s.solution := hfr.2.1
  have h1ini : s1.initialBoard = s.initialBoard := hfr.2.2.1
  have h1sel : s1.selectedCell = some (r, c) := by
    rw [hfr.2.2.2.1, hsel]
  have h1c : s1.correctAnswers =
      (if s.solution r c = d then s.correctAnswers + 1 else s.correctAnswers) := by
    rw [hs1def]
    by_cases hsol : s.solution r c = d <;>
      simp [handleNumberInput, finishMove, hw, hsel, hini, hbne, hd, hempty,
        Ne.symm hd, hsol]
  have h1m : s1.mistakes =
      (if s.solution r c = d then s.mistakes else s.mistakes + 1) := by
    rw [hs1def]
    by_cases hsol : s.solution r c = d <;>
      simp [handleNumberInput, finishMove, hw, hsel, hini, hbne, hd, hsol]
  have h1brc : s1.board r c = d := by
    rw [h1b]
    exact setCell_same _ _ _ _
  refine ⟨?_, ?_, ?_⟩
  · simp [handleNumberInput, finishMove, h1w, h1sel, h1ini, hini, h1brc,
      setCell_same]
  · by_cases hsol : s.solution r c = d
    · simp [handleNumberInput, finishMove, h1w, h1sel, h1ini, hini, h1brc,
        h1sol, hsol, h1c, hd]
    · simp [handleNumberInput, finishMove, h1w, h1sel, h1ini, hini, h1brc,
        h1sol, hsol, h1c]
  · simp [handleNumberInput, finishMove, h1w, h1sel, h1ini, hini, h1brc, h1m]

/-- Witness for C2 (amended) at a concrete correct placement. -/
theorem C2_toggle_restores_witness :
    (twoHolesSession.isWon = false ∧
     twoHolesSession.selectedCell = some (0, 0) ∧
     twoHolesSession.initialBoard 0 0 = 0 ∧ twoHolesSession.board 0 0 = 0 ∧
     (1 : ℕ) ≠ 0 ∧
     checkWinBoard (setCell twoHolesSession.board 0 0 1)
       twoHolesSession.solution = false) ∧
    ((handleNumberInput 1 (handleNumberInput 1 twoHolesSession)).board 0 0
       = 0 ∧
     (handleNumberInput 1 (handleNumberInput 1 twoHolesSession)).correctAnswers
       = twoHolesSession.correctAnswers ∧
     (handleNumberInput 1 (handleNumberInput 1 twoHolesSession)).mistakes
       = (if twoHolesSession.solution 0 0 = 1 then twoHolesSession.mistakes
          else twoHolesSession.mistakes + 1)) :=
  ⟨by decide, C2_toggle_restores twoHolesSession 0 0 1 (by decide) (by decide)
    (by decide) (by decide) (by decide) (by decide)⟩

/-- **C9** counterexample: a cell currently holding its correct digit can be
overwritten by a placement of a different digit (the selection persists after
a placement), so the cell changes outside the toggle-clear branch — and
re-correcting it afterwards increments `correctAnswers` a second time for the
same cell. -/
theorem C9_overwrite_counterexample :
    correctCellSession.board 0 0 = correctCellSession.solution 0 0 ∧
    correctCellSession.initialBoard 0 0 = 0 ∧
    correctCellSession.selectedCell = some (0, 0) ∧
    correctCellSession.isWon = false ∧
    (handleNumberInput 2 correctCellSession).board 0 0 = 2 ∧
    (2 : ℕ) ≠ correctCellSession.solution 0 0 ∧
    correctCellSession.correctAnswers = 1 ∧
    (handleNumberInput 1
      (handleNumberInput 2 correctCellSession)).correctAnswers = 2 := by
  decide

/-- **C9** (amended): a placement of a nonzero digit `v` on a selected
editable cell holding a different value always lands: the cell becomes `v`
even if it previously held its correct digit.  `correctAnswers` increments
exactly when `v` matches the solution (and then the prior value was
necessarily empty or incorrect — the "only when" guard); otherwise `mistakes`
increments. -/
theorem C9_placement_counting (s : GameState) (r c : Fin 9) (v : ℕ)
    (hw : s.isWon = false) (hsel : s.selectedCell = some (r, c))
    (hini : s.initialBoard r c = 0) (hbne : s.board r c ≠ v) (hv : v ≠ 0) :
    (handleNumberInput v s).board r c = v ∧
    (handleNumberInput v s).correctAnswers =
      (if s.solution r c = v then s.correctAnswers + 1
       else s.correctAnswers) ∧
    (handleNumberInput v s).mistakes =
      (if s.solution r c = v then s.mistakes else s.mistakes + 1) ∧
    ((handleNumberInput v s).correctAnswers ≠ s.correctAnswers →
      (s.board r c = 0 ∨ s.board r c ≠ s.solution r c)) := by
  refine ⟨?_, ?_, ?_, ?_⟩
  · simp [handleNumberInput, finishMove, hw, hsel, hini, hbne, setCell_same]
  · by_cases hsol : s.solution r c = v
    · have hguard : s.board r c = 0
          ∨ (s.board r c ≠ 0 ∧ s.board r c ≠ s.solution r c) := by
        rcases eq_or_ne (s.board r c) 0 with h0 | h0
        · exact Or.inl h0
        · refine Or.inr ⟨h0, ?_⟩
          rw [hsol]
          exact hbne
      simp [handleNumberInput, finishMove, hw, hsel, hini, hbne, hv, hsol,
        hguard]
    · simp [handleNumberInput, finishMove, hw, hsel, hini, hbne, hv, hsol]
  · by_cases hsol : s.solution r c = v <;>
      simp [handleNumberInput, finishMove, hw, hsel, hini, hbne, hv, hsol]
  · intro hne
    by_cases hsol : s.solution r c = v
    · rcases eq_or_ne (s.board r c) 0 with h0 | h0
      · exact Or.inl h0
      · refine Or.inr ?_
        rw [hsol]
        exact hbne
    · exfalso
      apply hne
      simp [handleNumberInput, finishMove, hw, hsel, hini, hbne, hv, hsol]

/-- Witness for C9 (amended): overwriting a correct cell with a wrong digit. -/
theorem C9_placement_counting_witness :
    (correctCellSession.isWon = false ∧
     correctCellSession.selectedCell = some (0, 0) ∧
     correctCellSession.initialBoard 0 0 = 0 ∧
     correctCellSession.board 0 0 ≠ 2 ∧ (2 : ℕ) ≠ 0) ∧
    ((handleNumberInput 2 correctCellSession).board 0 0 = 2 ∧
     (handleNumberInput 2 correctCellSession).correctAnswers =
       (if correctCellSession.solution 0 0 = 2
        then correctCellSession.correctAnswers + 1
        else correctCellSession.correctAnswers) ∧
     (handleNumberInput 2 correctCellSession).mistakes =
       (if correctCellSession.solution 0 0 = 2 then correctCellSession.mistakes
        else correctCellSession.mistakes + 1) ∧
     ((handleNumberInput 2 correctCellSession).correctAnswers
         ≠ correctCellSession.correctAnswers →
       (correctCellSession.board 0 0 = 0 ∨
        correctCellSession.board 0 0 ≠ correctCellSession.solution 0 0))) :=
  ⟨by decide, C9_placement_counting correctCellSession 0 0 2 (by decide)
    (by decide) (by decide) (by decide) (by decide)⟩

/-- **C3** (divergence): in a session whose single remaining empty editable
cell is filled by a hint, the board afterwards equals the solution cell for
cell, yet `isWon` stays false, the clock keeps running, and no score
breakdown is produced: the hint mutation is not followed by any win check,
unlike a digit placement. -/
theorem C3_hint_win_not_detected :
    (∀ i j, (handleHint 0 oneHoleSession).board i j
       = (handleHint 0 oneHoleSession).solution i j) ∧
    (handleHint 0 oneHoleSession).isWon = false ∧
    (handleHint 0 oneHoleSession).isTimerRunning = true ∧
    (scoreOnWinEffect (handleHint 0 oneHoleSession)).finalScore = none ∧
    (handleNumberInput 1 (step (.click 0 0) oneHoleSession)).isWon = true := by
  refine ⟨by decide, by decide, by decide, by decide, ?_⟩
  decide

/-- **C4** counterexample: `initialize` performs no validation: a puzzle with
an out-of-range digit disagreeing with the solution is not rejected — the
session state is overwritten with it. -/
theorem C4_validation_counterexample :
    ¬ SpecValidInput malformedPuzzle solGrid ∧
    (initializeGame malformedPuzzle solGrid blankState).board 0 0 = 17 ∧
    (initializeGame malformedPuzzle solGrid blankState).board 0 0
      ≠ blankState.board 0 0 ∧
    (initializeGame malformedPuzzle solGrid blankState).isTimerRunning
      ≠ blankState.isTimerRunning := by
  refine ⟨?_, by decide, by decide, by decide⟩
  intro h
  exact absurd (h.1 0 0) (by decide)

/-- **C4** (amended): `initialize` never validates and never rejects: for
every input pair it unconditionally resets the board and the initial board to
the puzzle, installs the solution, zeroes all counters, clears the selection,
and starts the clock. -/
theorem C4_initialize_unconditional (p sol : Grid) (s : GameState) :
    (initializeGame p sol s).board = p ∧
    (initializeGame p sol s).initialBoard = p ∧
    (initializeGame p sol s).puzzle = p ∧
    (initializeGame p sol s).solution = sol ∧
    (initializeGame p sol s).mistakes = 0 ∧
    (initializeGame p sol s).hintsUsed = 0 ∧
    (initializeGame p sol s).correctAnswers = 0 ∧
    (initializeGame p sol s).timer = 0 ∧
    (initializeGame p sol s).isWon = false ∧
    (initializeGame p sol s).isTimerRunning = true ∧
    (initializeGame p sol s).selectedCell = none ∧
    (initializeGame p sol s).finalScore = none :=
  ⟨rfl, rfl, rfl, rfl, rfl, rfl, rfl, rfl, rfl, rfl, rfl, rfl⟩

/-- **C7**: whenever `requestHint` mutates, the selected cell is empty and
editable, the board gets the solution digit there, the cell becomes selected,
its digit becomes highlighted and the hint counter increments; with no
eligible cell the call is a silent no-op. -/
theorem C7_hint_eligibility (s : GameState) (k : ℕ) (hw : s.isWon = false)
    (hh : s.hintsUsed < 3) :
    ((emptyCellsList s).length = 0 → handleHint k s = s) ∧
    ∀ hlen : (emptyCellsList s).length ≠ 0,
      s.board (hintCell k s hlen).1 (hintCell k s hlen).2 = 0 ∧
      s.initialBoard (hintCell k s hlen).1 (hintCell k s hlen).2 = 0 ∧
      handleHint k s = { s with
        board := setCell s.board (hintCell k s hlen).1 (hintCell k s hlen).2
          (s.solution (hintCell k s hlen).1 (hintCell k s hlen).2)
        hintsUsed := s.hintsUsed + 1
        selectedCell := some (hintCell k s hlen)
        highlightedNumber :=
          some (s.solution (hintCell k s hlen).1 (hintCell k s hlen).2) } := by
  constructor
  · intro hlen0
    unfold handleHint
    rw [if_neg (by simp [hw]), if_neg (Nat.not_le.mpr hh), dif_pos hlen0]
  · intro hlen
    refine ⟨(mem_emptyCellsList (hintCell_mem k s hlen)).1,
      (mem_emptyCellsList (hintCell_mem k s hlen)).2, ?_⟩
    unfold handleHint
    rw [if_neg (by simp [hw]), if_neg (Nat.not_le.mpr hh), dif_neg hlen]

/-- The one-hole session has a nonempty eligible-cell list (helper for the
C7 witness). -/
theorem oneHole_len_ne : (emptyCellsList oneHoleSession).length ≠ 0 := by
  decide

/-- Witness for C7 at the concrete one-hole session. -/
theorem C7_hint_eligibility_witness :
    oneHoleSession.board (hintCell 0 oneHoleSession oneHole_len_ne).1
      (hintCell 0 oneHoleSession oneHole_len_ne).2 = 0 ∧
    oneHoleSession.initialBoard (hintCell 0 oneHoleSession oneHole_len_ne).1
      (hintCell 0 oneHoleSession oneHole_len_ne).2 = 0 ∧
    handleHint 0 oneHoleSession = { oneHoleSession with
      board := setCell oneHoleSession.board
        (hintCell 0 oneHoleSession oneHole_len_ne).1
        (hintCell 0 oneHoleSession oneHole_len_ne).2
        (oneHoleSession.solution (hintCell 0 oneHoleSession oneHole_len_ne).1
          (hintCell 0 oneHoleSession oneHole_len_ne).2)
      hintsUsed := oneHoleSession.hintsUsed + 1
      selectedCell := some (hintCell 0 oneHoleSession oneHole_len_ne)
      highlightedNumber := some (oneHoleSession.solution
        (hintCell 0 oneHoleSession oneHole_len_ne).1
        (hintCell 0 oneHoleSession oneHole_len_ne).2) } :=
  (C7_hint_eligibility oneHoleSession 0 (by decide) (by decide)).2
    oneHole_len_ne

/-- **C5**: the final score equals
`round((10000 + correctAnswers*100 - mistakes*300 - hintsUsed*800 + timeBonus)
* multiplier) + perfectBonus`, floored at 0, where `timeBonus` follows the
first matching tier of elapsed seconds, `multiplier` follows the difficulty
table (`easy` 1.0, `medium` 1.5, `hard` 2.0, `random` 1.25, unknown 1.0),
and `perfectBonus` is a flat un-multiplied 2000 exactly when
`mistakes = 0 ∧ hintsUsed = 0`; and in particular for `hard` difficulty with
2 mistakes, 1 hint and `t = 700` the total is
`round((10000 + correctAnswers*100 - 600 - 800 + 500) * 2.0)`. -/
theorem C5_final_score_formula :
    (∀ (c m h t : ℕ) (d : String),
      (calculateScore c m h t d).total =
        max 0 (jsRound (((10000 + (c : ℤ) * 100 - (m : ℤ) * 300
              - (h : ℤ) * 800 +
              (if t < 180 then (3000 : ℤ) else if t < 300 then 2000
               else if t < 600 then 1000 else if t < 900 then 500 else 0)
              : ℤ) : ℚ) * multiplierOf d) +
          (if m = 0 ∧ h = 0 then 2000 else 0))) ∧
    multiplierOf "easy" = 1 ∧ multiplierOf "medium" = 3 / 2 ∧
    multiplierOf "hard" = 2 ∧ multiplierOf "random" = 5 / 4 ∧
    (∀ d : String, jsToLower d ≠ "easy" → jsToLower d ≠ "medium" →
      jsToLower d ≠ "hard" → jsToLower d ≠ "random" → multiplierOf d = 1) ∧
    (∀ c : ℕ, (calculateScore c 2 1 700 "hard").total =
      jsRound (((10000 + (c : ℤ) * 100 - 600 - 800 + 500 : ℤ) : ℚ) * 2)) := by
  refine ⟨?_, multiplierOf_easy, multiplierOf_medium, multiplierOf_hard,
    multiplierOf_random, ?_, ?_⟩
  · intro c m h t d
    simp only [calculateScore, timeBonusOf]
    split_ifs with hp <;> simp
  · intro d h1 h2 h3 h4
    rw [multiplierOf, difficultyMultipliers]
    rw [if_neg h1, if_neg h2, if_neg h3, if_neg h4]
    rfl
  · intro c
    simp only [calculateScore, timeBonusOf, multiplierOf_hard]
    norm_num
    unfold jsRound
    rw [Int.floor_nonneg]
    have hc : (0 : ℚ) ≤ (c : ℚ) := Nat.cast_nonneg c
    linarith

/-- Witness for C5: the unknown-difficulty default and a concrete total. -/
theorem C5_final_score_formula_witness :
    multiplierOf "EXPERT" = 1 ∧
    (calculateScore 40 2 1 700 "hard").total =
      jsRound (((10000 + (40 : ℤ) * 100 - 600 - 800 + 500 : ℤ) : ℚ) * 2) :=
  ⟨C5_final_score_formula.2.2.2.2.2.1 "EXPERT" (by decide) (by decide)
      (by decide) (by decide),
    C5_final_score_formula.2.2.2.2.2.2 40⟩

/-- Witness for C10: a concrete wrong placement adds exactly one mistake. -/
theorem C10_mistakes_monotone_witness :
    (twoHolesSession.isWon = false ∧
     twoHolesSession.selectedCell = some (0, 0) ∧
     twoHolesSession.initialBoard 0 0 = 0 ∧ twoHolesSession.board 0 0 ≠ 2 ∧
     (2 : ℕ) ≠ 0 ∧ twoHolesSession.solution 0 0 ≠ 2) ∧
    (handleNumberInput 2 twoHolesSession).mistakes =
      twoHolesSession.mistakes + 1 :=
  ⟨by decide,
    (C10_mistakes_monotone (.input 2) twoHolesSession).2.1 0 0 2 (by decide)
      (by decide) (by decide) (by decide) (by decide) (by decide)⟩

end Sudoku
